import Mathlib

/-!
Shallow embedding of the ISBN generator in `src/main.rs` (crate `isbn`).

Rust `String` values are modelled as Lean `String` (a wrapper around
`List Char`); `usize` arithmetic is modelled on `Nat`, with every
subtraction that can underflow in Rust (a panic in debug builds) made
explicit: a function that can hit such an underflow returns `Option`
and yields `none` exactly when the Rust code would panic.  The random
draw of `rng.gen_range(0..max)` is modelled as an explicit `draw`
parameter; theorems restrict it to the half-open range the code draws
from.
-/

/-- Rust `num_char as usize - 48`: the digit value the code extracts from a
character.  (`Nat` subtraction truncates where a Rust debug build would
panic for characters below `'0'`; every claim below only evaluates it on
characters at or above `'0'`.) -/
def digitValue (c : Char) : Nat := c.toNat - 48

/-- Rust `usize::to_string`: the decimal digit characters of `n`, most
significant first, with no leading zeros (and `"0"` for zero). -/
def natToDecimalChars (n : Nat) : List Char :=
  if h : n < 10 then [Char.ofNat (48 + n)]
  else natToDecimalChars (n / 10) ++ [Char.ofNat (48 + n % 10)]
termination_by n
decreasing_by exact Nat.div_lt_self (by omega) (by omega)

/-- Rust `str::parse::<usize>` restricted to digit strings: fold the decimal
digits left to right. -/
def parseDecimal (cs : List Char) : Nat :=
  cs.foldl (fun acc c => 10 * acc + digitValue c) 0

/-- The `Isbn` struct of `src/main.rs`. -/
structure Isbn where
  head_code : String
  country_code : String
  publisher_code : String
  publication_code : String
  check_digit_10 : String
  check_digit_13 : String

/-- `Isbn::generate_publication_code`.  `draw` is the value produced by
`rng.gen_range(0..max_publication_code)`.  The two `usize` subtractions of
the Rust code that can underflow (`10 - (len+len+1)` and
`(max_len - 1) - code_len`) are checked: `none` models the debug-build
panic.  The draw itself is also guarded against an empty range, where
`gen_range` panics. -/
def Isbn.generate_publication_code (country_code publisher_code : String)
    (draw : Nat) : Option String :=
  let country_code_digit := country_code.length
  let publisher_code_digit := publisher_code.length
  if country_code_digit + publisher_code_digit + 1 > 10 then none
  else
    let publication_code_digit := 10 - (country_code_digit + publisher_code_digit + 1)
    let max_publication_code_string : String :=
      String.mk ('1' :: List.replicate publication_code_digit '0')
    let max_publication_code := parseDecimal max_publication_code_string.data
    if max_publication_code = 0 then none
    else
      let publication_code : String := String.mk (natToDecimalChars draw)
      if publication_code.length > max_publication_code_string.length - 1 then none
      else
        let digit_diff := (max_publication_code_string.length - 1) - publication_code.length
        if digit_diff = 0 then some publication_code
        else some (String.mk (List.replicate digit_diff '0') ++ publication_code)

/-- The first loop of `calc_check_digit_13`: sum of `digitValue` over the
characters at even 0-based indices (`(0..len).step_by(2)`). -/
def sumStep : List Char → Nat
  | [] => 0
  | [c] => digitValue c
  | c :: _ :: rest => digitValue c + sumStep rest

/-- The second loop of `calc_check_digit_13`, applied to the tail: each term
is `num * 3`, summed over the characters at even 0-based indices of the
tail, i.e. odd indices of the original string (`(1..len).step_by(2)`). -/
def sumStepTriple : List Char → Nat
  | [] => 0
  | [c] => digitValue c * 3
  | c :: _ :: rest => digitValue c * 3 + sumStepTriple rest

/-- Body of `calc_check_digit_13` after the four inputs have been
concatenated into `isbn_string_without_check_digit`. -/
def calcCheckDigit13Chars (d : List Char) : String :=
  let odd_total := sumStep d
  let even_total := sumStepTriple d.tail
  let check_digit_surplus := (odd_total + even_total) % 10
  if check_digit_surplus = 0 then "0"
  else String.mk (natToDecimalChars (10 - check_digit_surplus))

/-- `Isbn::calc_check_digit_13`. -/
def Isbn.calc_check_digit_13 (head_code country_code publisher_code publication_code : String) : String :=
  calcCheckDigit13Chars (head_code ++ country_code ++ publisher_code ++ publication_code).data

/-- The loop of `calc_check_digit_10`: `total += num * (10 - i)` over all
indices `i` of the concatenated string, starting at index `i₀`. -/
def weightedTotal : List Char → Nat → Nat
  | [], _ => 0
  | c :: rest, i => digitValue c * (10 - i) + weightedTotal rest (i + 1)

/-- Body of `calc_check_digit_10` after the three inputs have been
concatenated into `isbn_string_without_check_digit`. -/
def calcCheckDigit10Chars (d : List Char) : String :=
  let total := weightedTotal d 0
  let check_digit_surplus := total % 11
  if check_digit_surplus = 0 then "0"
  else if check_digit_surplus = 1 then "X"
  else String.mk (natToDecimalChars (11 - check_digit_surplus))

/-- `Isbn::calc_check_digit_10`. -/
def Isbn.calc_check_digit_10 (country_code publisher_code publication_code : String) : String :=
  calcCheckDigit10Chars (country_code ++ publisher_code ++ publication_code).data

/-- `Isbn::new`, with the random draw passed in explicitly. -/
def Isbn.new (head_code country_code publisher_code : String) (draw : Nat) : Option Isbn :=
  match Isbn.generate_publication_code country_code publisher_code draw with
  | none => none
  | some publication_code =>
    some { head_code := head_code
           country_code := country_code
           publisher_code := publisher_code
           publication_code := publication_code
           check_digit_10 := Isbn.calc_check_digit_10 country_code publisher_code publication_code
           check_digit_13 := Isbn.calc_check_digit_13 head_code country_code publisher_code publication_code }

/-- `Isbn::create_isbn_10`. -/
def Isbn.create_isbn_10 (self : Isbn) : String :=
  self.country_code ++ self.publisher_code ++ self.publication_code ++ self.check_digit_10

/-- `Isbn::create_isbn_13`. -/
def Isbn.create_isbn_13 (self : Isbn) : String :=
  self.head_code ++ self.country_code ++ self.publisher_code ++ self.publication_code ++ self.check_digit_13

/-- The message `main` prints when the retry budget is exhausted. -/
def failureMessage : String := "cannot find any books in 10 times"

/-- The retry loop of `main`, abstracting one lookup attempt into the oracle
`found` (attempt with counter value `k` succeeds iff `found k`).  Returns
the number of lookup attempts performed from counter value `counter` on,
together with `some failureMessage` when the loop exits by exhausting the
budget and `none` when it exits because a lookup succeeded. -/
def mainLoop (found : Nat → Bool) (counter : Nat) : Nat × Option String :=
  if h : counter > 10 then (0, some failureMessage)
  else if found counter then (1, none)
  else
    let rest := mainLoop found (counter + 1)
    (rest.1 + 1, rest.2)
termination_by 11 - counter
decreasing_by omega

example : Isbn.calc_check_digit_10 "4" "10" "109205" = "2" := by
  simp [Isbn.calc_check_digit_10, calcCheckDigit10Chars, weightedTotal, natToDecimalChars, digitValue]
example : Isbn.calc_check_digit_13 "978" "4" "7981" "7154" = "8" := by
  simp [Isbn.calc_check_digit_13, calcCheckDigit13Chars, sumStep, sumStepTriple, natToDecimalChars, digitValue]
example : Isbn.generate_publication_code "4444" "4444" 0 = some "0" := by
  simp [Isbn.generate_publication_code, parseDecimal, natToDecimalChars, digitValue]
  decide
example : Isbn.generate_publication_code "44444" "44444" 0 = none := by
  simp [Isbn.generate_publication_code, parseDecimal, natToDecimalChars, digitValue]
  decide
example : Isbn.generate_publication_code "4" "1" 123456 = some "0123456" := by
  simp [Isbn.generate_publication_code, parseDecimal, natToDecimalChars, digitValue]
  decide
example : mainLoop (fun _ => false) 0 = (11, some failureMessage) := by
  simp [mainLoop]

/-! Helper lemmas about the decimal rendering and parsing functions. -/

theorem natToDecimalChars_ne_nil (n : Nat) : natToDecimalChars n ≠ [] := by
  rw [natToDecimalChars]
  split <;> simp

theorem one_le_length_natToDecimalChars (n : Nat) : 1 ≤ (natToDecimalChars n).length := by
  have h := natToDecimalChars_ne_nil n
  cases hl : natToDecimalChars n with
  | nil => exact absurd hl h
  | cons a t => simp

theorem length_natToDecimalChars_le (k : Nat) : ∀ n : Nat, 1 ≤ k → n < 10 ^ k →
    (natToDecimalChars n).length ≤ k := by
  induction k with
  | zero => intro n hk _; omega
  | succ k ih =>
    intro n _ hn
    rw [natToDecimalChars]
    split
    · simp
    · have hk1 : 1 ≤ k := by
        by_contra hk0
        have : k = 0 := by omega
        subst this
        simp at hn
        omega
      have hdiv : n / 10 < 10 ^ k := by
        rw [Nat.div_lt_iff_lt_mul (by omega : 0 < 10)]
        calc n < 10 ^ (k + 1) := hn
        _ = 10 ^ k * 10 := by ring
      have := ih (n / 10) hk1 hdiv
      simp only [List.length_append, List.length_singleton]
      omega

theorem isDigit_natToDecimalChars (n : Nat) : ∀ c ∈ natToDecimalChars n, c.isDigit := by
  induction n using Nat.strong_induction_on with
  | _ n ih =>
    have hdig : ∀ m, m < 10 → (Char.ofNat (48 + m)).isDigit := by decide
    rw [natToDecimalChars]
    split
    · intro c hc
      simp only [List.mem_singleton] at hc
      subst hc
      exact hdig n (by assumption)
    · intro c hc
      rcases List.mem_append.mp hc with h | h
      · exact ih (n / 10) (Nat.div_lt_self (by omega) (by omega)) c h
      · simp only [List.mem_singleton] at h
        subst h
        exact hdig (n % 10) (Nat.mod_lt n (by omega))

theorem parseDecimal_natToDecimalChars (n : Nat) :
    parseDecimal (natToDecimalChars n) = n := by
  induction n using Nat.strong_induction_on with
  | _ n ih =>
    have hval : ∀ m, m < 10 → digitValue (Char.ofNat (48 + m)) = m := by decide
    rw [natToDecimalChars]
    split
    · simp only [parseDecimal, List.foldl_cons, List.foldl_nil, Nat.mul_zero, Nat.zero_add]
      exact hval n (by assumption)
    · have hrec := ih (n / 10) (Nat.div_lt_self (by omega) (by omega))
      simp only [parseDecimal, List.foldl_append, List.foldl_cons, List.foldl_nil] at hrec ⊢
      rw [hrec, hval (n % 10) (Nat.mod_lt n (by omega))]
      omega

theorem foldl_parse_replicate_zero (k : Nat) : ∀ a : Nat,
    List.foldl (fun acc c => 10 * acc + digitValue c) a (List.replicate k '0') = a * 10 ^ k := by
  induction k with
  | zero => intro a; simp
  | succ k ih =>
    intro a
    rw [List.replicate_succ]
    simp only [List.foldl_cons]
    rw [ih]
    have : digitValue '0' = 0 := rfl
    rw [this]
    ring

theorem parseDecimal_one_replicate_zero (k : Nat) :
    parseDecimal ('1' :: List.replicate k '0') = 10 ^ k := by
  simp only [parseDecimal, List.foldl_cons]
  rw [foldl_parse_replicate_zero]
  norm_num
  rfl

theorem parseDecimal_replicate_zero_append (k : Nat) (l : List Char) :
    parseDecimal (List.replicate k '0' ++ l) = parseDecimal l := by
  induction k with
  | zero => simp
  | succ k ih =>
    rw [List.replicate_succ, List.cons_append]
    simp only [parseDecimal, List.foldl_cons] at ih ⊢
    have : 10 * 0 + digitValue '0' = 0 := rfl
    rw [this]
    exact ih

/-! Bridge lemmas: the loops of the Rust code, written as recursive
functions above, compute the index-weighted sums of the specification. -/

theorem getD_tail_eq (l : List Char) (n : Nat) :
    l.tail.getD n '0' = l.getD (n + 1) '0' := by
  cases l <;> rfl

theorem getD_cons_cons (a b : Char) (l : List Char) (n : Nat) :
    (a :: b :: l).getD (n + 2) '0' = l.getD n '0' := rfl

theorem sumStep_eq_sum (l : List Char) :
    sumStep l = ∑ k ∈ Finset.range ((l.length + 1) / 2), digitValue (l.getD (2 * k) '0') := by
  match l with
  | [] => simp [sumStep]
  | [c] => simp [sumStep]
  | a :: b :: rest =>
    have ih := sumStep_eq_sum rest
    simp only [sumStep, List.length_cons]
    have h2 : (rest.length + 1 + 1 + 1) / 2 = (rest.length + 1) / 2 + 1 := by omega
    rw [h2, Finset.sum_range_succ']
    simp only [Nat.mul_add, Nat.mul_one, getD_cons_cons, Nat.mul_zero, List.getD_cons_zero]
    rw [ih]
    omega

theorem sumStepTriple_eq_sum (l : List Char) :
    sumStepTriple l = 3 * ∑ k ∈ Finset.range ((l.length + 1) / 2), digitValue (l.getD (2 * k) '0') := by
  match l with
  | [] => simp [sumStepTriple]
  | [c] => simp [sumStepTriple]; ring
  | a :: b :: rest =>
    have ih := sumStepTriple_eq_sum rest
    simp only [sumStepTriple, List.length_cons]
    have h2 : (rest.length + 1 + 1 + 1) / 2 = (rest.length + 1) / 2 + 1 := by omega
    rw [h2, Finset.sum_range_succ']
    simp only [Nat.mul_add, Nat.mul_one, getD_cons_cons, Nat.mul_zero, List.getD_cons_zero]
    rw [ih]
    ring

theorem weightedTotal_eq_sum (l : List Char) : ∀ i : Nat,
    weightedTotal l i = ∑ k ∈ Finset.range l.length, digitValue (l.getD k '0') * (10 - (i + k)) := by
  induction l with
  | nil => intro i; simp [weightedTotal]
  | cons c rest ih =>
    intro i
    simp only [weightedTotal, List.length_cons]
    rw [Finset.sum_range_succ']
    simp only [List.getD_cons_succ, List.getD_cons_zero, Nat.add_zero]
    rw [ih (i + 1)]
    have hsum : ∀ k ∈ Finset.range rest.length,
        digitValue (rest.getD k '0') * (10 - (i + 1 + k)) =
        digitValue (rest.getD k '0') * (10 - (i + (k + 1))) := by
      intro k _
      have : i + 1 + k = i + (k + 1) := by omega
      rw [this]
    rw [Finset.sum_congr rfl hsum]
    omega

/-! Claim theorems. -/

/-- C1: for every input of four digit strings whose concatenation `d` has
length 12, `calc_check_digit_13` returns `"0"` if
`(oddTotal + evenTotal) % 10 = 0` and otherwise the character for
`10 - remainder`, where `oddTotal` sums `digitValue (d[i])` over even
0-based indices and `evenTotal` is 3 times the sum over odd indices. -/
theorem calc_check_digit_13_matches_spec (h c p q : String)
    (hlen : (h ++ c ++ p ++ q).length = 12)
    (hdig : ∀ ch ∈ (h ++ c ++ p ++ q).data, ch.isDigit) :
    Isbn.calc_check_digit_13 h c p q =
      if (∑ k ∈ Finset.range 6, digitValue ((h ++ c ++ p ++ q).data.getD (2 * k) '0') +
          3 * ∑ k ∈ Finset.range 6, digitValue ((h ++ c ++ p ++ q).data.getD (2 * k + 1) '0')) % 10 = 0
      then "0"
      else String.mk [Char.ofNat (48 +
        (10 - (∑ k ∈ Finset.range 6, digitValue ((h ++ c ++ p ++ q).data.getD (2 * k) '0') +
               3 * ∑ k ∈ Finset.range 6, digitValue ((h ++ c ++ p ++ q).data.getD (2 * k + 1) '0')) % 10))] := by
  simp only [Isbn.calc_check_digit_13]
  set d := (h ++ c ++ p ++ q).data with hdef
  have hd : d.length = 12 := hlen
  have ht : d.tail.length = 11 := by rw [List.length_tail, hd]
  have hodd : sumStep d = ∑ k ∈ Finset.range 6, digitValue (d.getD (2 * k) '0') := by
    rw [sumStep_eq_sum, hd]
  have heven : sumStepTriple d.tail =
      3 * ∑ k ∈ Finset.range 6, digitValue (d.getD (2 * k + 1) '0') := by
    rw [sumStepTriple_eq_sum, ht]
    congr 1
    exact Finset.sum_congr rfl (fun k _ => by rw [getD_tail_eq])
  simp only [calcCheckDigit13Chars, hodd, heven]
  by_cases h0 : (∑ k ∈ Finset.range 6, digitValue (d.getD (2 * k) '0') +
      3 * ∑ k ∈ Finset.range 6, digitValue (d.getD (2 * k + 1) '0')) % 10 = 0
  · rw [if_pos h0, if_pos h0]
  · simp only [if_neg h0]
    congr 1
    rw [natToDecimalChars]
    have hlt : 10 - (∑ k ∈ Finset.range 6, digitValue (d.getD (2 * k) '0') +
        3 * ∑ k ∈ Finset.range 6, digitValue (d.getD (2 * k + 1) '0')) % 10 < 10 := by
      omega
    rw [dif_pos hlt]

/-- C1 witness: the theorem applied at the worked example 978-4-7981-7154,
whose check digit is 8. -/
theorem calc_check_digit_13_matches_spec_witness :
    Isbn.calc_check_digit_13 "978" "4" "7981" "7154" = "8" := by
  rw [calc_check_digit_13_matches_spec "978" "4" "7981" "7154" (by decide) (by decide)]
  decide

/-- C2: for every input of three digit strings whose concatenation `d` has
length 9, `calc_check_digit_10` returns `"0"` if `total % 11 = 0`, `"X"` if
`total % 11 = 1`, and otherwise the character for `11 - remainder`, where
`total` sums `digitValue (d[i]) * (10 - i)` over `i < 9`. -/
theorem calc_check_digit_10_matches_spec (c p q : String)
    (hlen : (c ++ p ++ q).length = 9)
    (hdig : ∀ ch ∈ (c ++ p ++ q).data, ch.isDigit) :
    Isbn.calc_check_digit_10 c p q =
      if (∑ i ∈ Finset.range 9, digitValue ((c ++ p ++ q).data.getD i '0') * (10 - i)) % 11 = 0
      then "0"
      else if (∑ i ∈ Finset.range 9, digitValue ((c ++ p ++ q).data.getD i '0') * (10 - i)) % 11 = 1
      then "X"
      else String.mk [Char.ofNat (48 +
        (11 - (∑ i ∈ Finset.range 9, digitValue ((c ++ p ++ q).data.getD i '0') * (10 - i)) % 11))] := by
  simp only [Isbn.calc_check_digit_10]
  set d := (c ++ p ++ q).data with hdef
  have hd : d.length = 9 := hlen
  have htot : weightedTotal d 0 =
      ∑ i ∈ Finset.range 9, digitValue (d.getD i '0') * (10 - i) := by
    rw [weightedTotal_eq_sum, hd]
    exact Finset.sum_congr rfl (fun k _ => by rw [Nat.zero_add])
  simp only [calcCheckDigit10Chars, htot]
  by_cases h0 : (∑ i ∈ Finset.range 9, digitValue (d.getD i '0') * (10 - i)) % 11 = 0
  · rw [if_pos h0, if_pos h0]
  · by_cases h1 : (∑ i ∈ Finset.range 9, digitValue (d.getD i '0') * (10 - i)) % 11 = 1
    · rw [if_neg h0, if_neg h0, if_pos h1, if_pos h1]
    · simp only [if_neg h0, if_neg h1]
      congr 1
      rw [natToDecimalChars]
      have hlt : 11 - (∑ i ∈ Finset.range 9, digitValue (d.getD i '0') * (10 - i)) % 11 < 10 := by
        have : (∑ i ∈ Finset.range 9, digitValue (d.getD i '0') * (10 - i)) % 11 < 11 :=
          Nat.mod_lt _ (by omega)
        omega
      rw [dif_pos hlt]

/-- C2 witness: the theorem applied at the worked example 4-10-109205,
whose check digit is 2. -/
theorem calc_check_digit_10_matches_spec_witness :
    Isbn.calc_check_digit_10 "4" "10" "109205" = "2" := by
  rw [calc_check_digit_10_matches_spec "4" "10" "109205" (by decide) (by decide)]
  decide

/-- C5: the code does not reject non-digit input.  With the non-digit
country code "A" (code point 65, treated as digit value 17) the code
silently computes and returns the checksum "4" instead of surfacing an
error. -/
theorem calc_check_digit_10_accepts_nondigit :
    Isbn.calc_check_digit_10 "A" "10" "109205" = "4" ∧ ('A'.isDigit = false) := by
  constructor
  · simp [Isbn.calc_check_digit_10, calcCheckDigit10Chars, weightedTotal, natToDecimalChars,
      digitValue]
  · decide

/-- Characterization of `generate_publication_code` on valid input: with
combined code length at most 8 and a draw inside the range
`[0, 10 ^ width)`, it returns the decimal rendering of the draw left-padded
with '0' to the derived width. -/
theorem generate_publication_code_spec (c p : String) (n : Nat)
    (hcp : c.length + p.length ≤ 8)
    (hn : n < 10 ^ (10 - (c.length + p.length + 1))) :
    Isbn.generate_publication_code c p n =
      some (String.mk (List.replicate
              ((10 - (c.length + p.length + 1)) - (natToDecimalChars n).length) '0'
            ++ natToDecimalChars n)) := by
  have hw1 : 1 ≤ 10 - (c.length + p.length + 1) := by omega
  have hlen : (natToDecimalChars n).length ≤ 10 - (c.length + p.length + 1) :=
    length_natToDecimalChars_le _ _ hw1 hn
  simp only [Isbn.generate_publication_code]
  rw [if_neg (by omega : ¬ c.length + p.length + 1 > 10)]
  have hmax : parseDecimal
      (String.mk ('1' :: List.replicate (10 - (c.length + p.length + 1)) '0')).data =
      10 ^ (10 - (c.length + p.length + 1)) :=
    parseDecimal_one_replicate_zero _
  rw [if_neg (by
    rw [hmax]
    exact Nat.pos_iff_ne_zero.mp (Nat.pow_pos (by omega)))]
  have hpl : (String.mk (natToDecimalChars n)).length = (natToDecimalChars n).length := rfl
  have hml : (String.mk ('1' :: List.replicate (10 - (c.length + p.length + 1)) '0')).length =
      (10 - (c.length + p.length + 1)) + 1 := by
    show ('1' :: List.replicate (10 - (c.length + p.length + 1)) '0').length = _
    simp
  rw [if_neg (by rw [hpl, hml]; omega)]
  have hdiffeq :
      (String.mk ('1' :: List.replicate (10 - (c.length + p.length + 1)) '0')).length - 1 -
        (String.mk (natToDecimalChars n)).length =
      (10 - (c.length + p.length + 1)) - (natToDecimalChars n).length := by
    rw [hpl, hml]
    omega
  by_cases hdd : (10 - (c.length + p.length + 1)) - (natToDecimalChars n).length = 0
  · rw [hdiffeq, if_pos hdd, hdd]
    rfl
  · rw [hdiffeq, if_neg hdd]
    rfl

/-- C3: for non-empty digit strings with combined length at most 8 and every
possible draw (zero included), the generated publication code has length
exactly `10 - len(country) - len(publisher) - 1`. -/
theorem generate_publication_code_length (c p : String) (n : Nat)
    (hc : 1 ≤ c.length) (hp : 1 ≤ p.length) (hcp : c.length + p.length ≤ 8)
    (hn : n < 10 ^ (10 - (c.length + p.length + 1))) :
    ∃ s : String, Isbn.generate_publication_code c p n = some s ∧
      s.length = 10 - c.length - p.length - 1 := by
  refine ⟨_, generate_publication_code_spec c p n hcp hn, ?_⟩
  have hlen := length_natToDecimalChars_le (10 - (c.length + p.length + 1)) n (by omega) hn
  show (List.replicate ((10 - (c.length + p.length + 1)) - (natToDecimalChars n).length) '0'
        ++ natToDecimalChars n).length = 10 - c.length - p.length - 1
  rw [List.length_append, List.length_replicate]
  omega

/-- C3 witness: the boundary case, country and publisher codes totaling
exactly 8 digits, draw 0: the theorem yields a code of width 1 with no error. -/
theorem generate_publication_code_length_witness :
    ∃ s : String, Isbn.generate_publication_code "4444" "4444" 0 = some s ∧
      s.length = 10 - "4444".length - "4444".length - 1 :=
  generate_publication_code_length "4444" "4444" 0 (by decide) (by decide) (by decide) (by decide)

/-- C4: when the combined country and publisher code length is at least 9,
`generate_publication_code` fails deterministically for every draw: one of
the two `usize` subtractions underflows, a panic in the Rust code, so the
model returns `none` and no malformed publication code is ever produced. -/
theorem generate_publication_code_rejects (c p : String) (n : Nat)
    (h9 : 9 ≤ c.length + p.length) :
    Isbn.generate_publication_code c p n = none := by
  simp only [Isbn.generate_publication_code]
  by_cases hbig : c.length + p.length + 1 > 10
  · rw [if_pos hbig]
  · rw [if_neg hbig]
    have hw : 10 - (c.length + p.length + 1) = 0 := by omega
    rw [hw]
    rw [if_neg (by decide :
      ¬ parseDecimal (String.mk ('1' :: List.replicate 0 '0')).data = 0)]
    rw [if_pos (show (String.mk (natToDecimalChars n)).length >
        (String.mk ('1' :: List.replicate 0 '0')).length - 1 from by
      have h1 := one_le_length_natToDecimalChars n
      show (natToDecimalChars n).length > ('1' :: List.replicate 0 '0').length - 1
      simp
      omega)]

/-- C4 witness: a 4-digit country code and 5-digit publisher code (combined
length exactly 9) are rejected. -/
theorem generate_publication_code_rejects_witness :
    Isbn.generate_publication_code "4444" "44444" 0 = none :=
  generate_publication_code_rejects "4444" "44444" 0 (by decide)

/-- C9: on valid input, the generated publication code consists only of
ASCII digits and parses back to the drawn integer: the left zero-padding is
value-preserving. -/
theorem generate_publication_code_digits_value (c p : String) (n : Nat)
    (h2 : 2 ≤ c.length + p.length) (h8 : c.length + p.length ≤ 8)
    (hn : n < 10 ^ (10 - (c.length + p.length + 1))) :
    ∃ s : String, Isbn.generate_publication_code c p n = some s ∧
      (∀ ch ∈ s.data, ch.isDigit) ∧ parseDecimal s.data = n := by
  refine ⟨_, generate_publication_code_spec c p n h8 hn, ?_, ?_⟩
  · show ∀ ch ∈ (List.replicate ((10 - (c.length + p.length + 1)) - (natToDecimalChars n).length) '0'
        ++ natToDecimalChars n), ch.isDigit
    intro ch hch
    rcases List.mem_append.mp hch with hh | hh
    · rw [List.eq_of_mem_replicate hh]
      decide
    · exact isDigit_natToDecimalChars n ch hh
  · show parseDecimal (List.replicate ((10 - (c.length + p.length + 1)) - (natToDecimalChars n).length) '0'
        ++ natToDecimalChars n) = n
    rw [parseDecimal_replicate_zero_append, parseDecimal_natToDecimalChars]

/-- C9 witness: country "4", publisher "1", draw 123456: the code is all
digits and parses back to 123456 (it is the zero-padded "0123456"). -/
theorem generate_publication_code_digits_value_witness :
    ∃ s : String, Isbn.generate_publication_code "4" "1" 123456 = some s ∧
      (∀ ch ∈ s.data, ch.isDigit) ∧ parseDecimal s.data = 123456 :=
  generate_publication_code_digits_value "4" "1" 123456 (by decide) (by decide) (by decide)

/-- A computed ISBN-10 check digit is always a single character. -/
theorem length_calcCheckDigit10Chars (d : List Char) :
    (calcCheckDigit10Chars d).length = 1 := by
  simp only [calcCheckDigit10Chars]
  by_cases h0 : weightedTotal d 0 % 11 = 0
  · rw [if_pos h0]
    rfl
  · rw [if_neg h0]
    by_cases h1 : weightedTotal d 0 % 11 = 1
    · rw [if_pos h1]
      rfl
    · rw [if_neg h1]
      have hlt : 11 - weightedTotal d 0 % 11 < 10 := by
        have := Nat.mod_lt (weightedTotal d 0) (show 0 < 11 by omega)
        omega
      show (String.mk (natToDecimalChars (11 - weightedTotal d 0 % 11))).length = 1
      rw [natToDecimalChars, dif_pos hlt]
      rfl

/-- A computed ISBN-13 check digit is always a single character. -/
theorem length_calcCheckDigit13Chars (d : List Char) :
    (calcCheckDigit13Chars d).length = 1 := by
  simp only [calcCheckDigit13Chars]
  by_cases h0 : (sumStep d + sumStepTriple d.tail) % 10 = 0
  · rw [if_pos h0]
    rfl
  · rw [if_neg h0]
    have hlt : 10 - (sumStep d + sumStepTriple d.tail) % 10 < 10 := by
      have := Nat.mod_lt (sumStep d + sumStepTriple d.tail) (show 0 < 10 by omega)
      omega
    show (String.mk (natToDecimalChars (10 - (sumStep d + sumStepTriple d.tail) % 10))).length = 1
    rw [natToDecimalChars, dif_pos hlt]
    rfl

/-- C7: with head code "978" and valid non-empty country and publisher
codes of combined length at most 8, the assembled ISBN-13 string has length
13 and the assembled ISBN-10 string has length 10, for every draw. -/
theorem create_isbn_lengths (c p : String) (n : Nat)
    (hc : 1 ≤ c.length) (hp : 1 ≤ p.length) (hcp : c.length + p.length ≤ 8)
    (hn : n < 10 ^ (10 - (c.length + p.length + 1))) :
    ∃ i : Isbn, Isbn.new "978" c p n = some i ∧
      (Isbn.create_isbn_13 i).length = 13 ∧ (Isbn.create_isbn_10 i).length = 10 := by
  obtain ⟨s, hs, hslen⟩ := generate_publication_code_length c p n hc hp hcp hn
  refine ⟨{ head_code := "978", country_code := c, publisher_code := p, publication_code := s,
            check_digit_10 := Isbn.calc_check_digit_10 c p s,
            check_digit_13 := Isbn.calc_check_digit_13 "978" c p s }, ?_, ?_, ?_⟩
  · simp only [Isbn.new, hs]
  · have h13 : (Isbn.calc_check_digit_13 "978" c p s).length = 1 :=
      length_calcCheckDigit13Chars _
    simp only [Isbn.create_isbn_13, String.length_append]
    rw [show ("978" : String).length = 3 from rfl]
    omega
  · have h10 : (Isbn.calc_check_digit_10 c p s).length = 1 :=
      length_calcCheckDigit10Chars _
    simp only [Isbn.create_isbn_10, String.length_append]
    omega

/-- C7 witness: the theorem applied with country "4", publisher "10" and
draw 0. -/
theorem create_isbn_lengths_witness :
    ∃ i : Isbn, Isbn.new "978" "4" "10" 0 = some i ∧
      (Isbn.create_isbn_13 i).length = 13 ∧ (Isbn.create_isbn_10 i).length = 10 :=
  create_isbn_lengths "4" "10" 0 (by decide) (by decide) (by decide) (by decide)

/-- C6: for an identifier built by `Isbn::new` from valid parts, recomputing
the ISBN-10 check digit from the first 9 characters of the assembled
ISBN-10 string, and the ISBN-13 check digit from the first 12 characters of
the assembled ISBN-13 string, reproduces exactly the check digit embedded
as the last character of each string. -/
theorem check_digit_round_trip (h c p : String) (n : Nat)
    (hh : h.length = 3) (hc : 1 ≤ c.length) (hp : 1 ≤ p.length)
    (hcp : c.length + p.length ≤ 8)
    (hn : n < 10 ^ (10 - (c.length + p.length + 1))) :
    ∃ i : Isbn, Isbn.new h c p n = some i ∧
      calcCheckDigit10Chars ((Isbn.create_isbn_10 i).data.take 9) = i.check_digit_10 ∧
      String.mk ((Isbn.create_isbn_10 i).data.drop 9) = i.check_digit_10 ∧
      calcCheckDigit13Chars ((Isbn.create_isbn_13 i).data.take 12) = i.check_digit_13 ∧
      String.mk ((Isbn.create_isbn_13 i).data.drop 12) = i.check_digit_13 := by
  obtain ⟨s, hs, hslen⟩ := generate_publication_code_length c p n hc hp hcp hn
  refine ⟨{ head_code := h, country_code := c, publisher_code := p, publication_code := s,
            check_digit_10 := Isbn.calc_check_digit_10 c p s,
            check_digit_13 := Isbn.calc_check_digit_13 h c p s }, ?_, ?_, ?_, ?_, ?_⟩
  · simp only [Isbn.new, hs]
  · show calcCheckDigit10Chars (((c ++ p ++ s) ++ Isbn.calc_check_digit_10 c p s).data.take 9) = _
    rw [String.data_append]
    have h9 : ((c ++ p ++ s) : String).data.length = 9 := by
      show (c ++ p ++ s).length = 9
      rw [String.length_append, String.length_append]
      omega
    rw [List.take_left' h9]
    rfl
  · show String.mk (((c ++ p ++ s) ++ Isbn.calc_check_digit_10 c p s).data.drop 9) = _
    rw [String.data_append]
    have h9 : ((c ++ p ++ s) : String).data.length = 9 := by
      show (c ++ p ++ s).length = 9
      rw [String.length_append, String.length_append]
      omega
    rw [List.drop_left' h9]
  · show calcCheckDigit13Chars (((h ++ c ++ p ++ s) ++ Isbn.calc_check_digit_13 h c p s).data.take 12) = _
    rw [String.data_append]
    have h12 : ((h ++ c ++ p ++ s) : String).data.length = 12 := by
      show (h ++ c ++ p ++ s).length = 12
      rw [String.length_append, String.length_append, String.length_append]
      omega
    rw [List.take_left' h12]
    rfl
  · show String.mk (((h ++ c ++ p ++ s) ++ Isbn.calc_check_digit_13 h c p s).data.drop 12) = _
    rw [String.data_append]
    have h12 : ((h ++ c ++ p ++ s) : String).data.length = 12 := by
      show (h ++ c ++ p ++ s).length = 12
      rw [String.length_append, String.length_append, String.length_append]
      omega
    rw [List.drop_left' h12]

/-- C6 witness: the theorem applied at head "978", country "4", publisher
"7981", draw 7154. -/
theorem check_digit_round_trip_witness :
    ∃ i : Isbn, Isbn.new "978" "4" "7981" 7154 = some i ∧
      calcCheckDigit10Chars ((Isbn.create_isbn_10 i).data.take 9) = i.check_digit_10 ∧
      String.mk ((Isbn.create_isbn_10 i).data.drop 9) = i.check_digit_10 ∧
      calcCheckDigit13Chars ((Isbn.create_isbn_13 i).data.take 12) = i.check_digit_13 ∧
      String.mk ((Isbn.create_isbn_13 i).data.drop 12) = i.check_digit_13 :=
  check_digit_round_trip "978" "4" "7981" 7154 (by decide) (by decide) (by decide) (by decide)
    (by decide)

/-- C8: the two check-digit computations are pure functions of their string
arguments: equal inputs give equal outputs.  (The embedding takes no random
state at all, mirroring the Rust functions, which never touch the RNG.) -/
theorem calc_check_digits_pure
    (c p q c2 p2 q2 h3 c3 p3 q3 h4 c4 p4 q4 : String)
    (e1 : c = c2) (e2 : p = p2) (e3 : q = q2)
    (f1 : h3 = h4) (f2 : c3 = c4) (f3 : p3 = p4) (f4 : q3 = q4) :
    Isbn.calc_check_digit_10 c p q = Isbn.calc_check_digit_10 c2 p2 q2 ∧
    Isbn.calc_check_digit_13 h3 c3 p3 q3 = Isbn.calc_check_digit_13 h4 c4 p4 q4 := by
  subst e1 e2 e3 f1 f2 f3 f4
  exact ⟨rfl, rfl⟩

/-- C8 witness: the theorem applied at the two worked examples. -/
theorem calc_check_digits_pure_witness :
    Isbn.calc_check_digit_10 "4" "10" "109205" = Isbn.calc_check_digit_10 "4" "10" "109205" ∧
    Isbn.calc_check_digit_13 "978" "4" "7981" "7154" = Isbn.calc_check_digit_13 "978" "4" "7981" "7154" :=
  calc_check_digits_pure "4" "10" "109205" "4" "10" "109205"
    "978" "4" "7981" "7154" "978" "4" "7981" "7154" rfl rfl rfl rfl rfl rfl rfl

/-- The loop exits immediately, with the failure message and no further
attempt, as soon as the counter exceeds 10. -/
theorem mainLoop_stop (found : Nat → Bool) (c : Nat) (h : c > 10) :
    mainLoop found c = (0, some failureMessage) := by
  rw [mainLoop, dif_pos h]

theorem mainLoop_attempts_le (found : Nat → Bool) :
    ∀ k c, 11 - c = k → (mainLoop found c).1 ≤ k := by
  intro k
  induction k with
  | zero =>
    intro c hc
    rw [mainLoop_stop found c (by omega)]
  | succ k ih =>
    intro c hc
    rw [mainLoop, dif_neg (by omega : ¬ c > 10)]
    by_cases hf : found c
    · rw [if_pos hf]
      omega
    · rw [if_neg hf]
      have := ih (c + 1) (by omega)
      simp only []
      omega

theorem mainLoop_all_fail (found : Nat → Bool) :
    ∀ k c, 11 - c = k → (∀ j, c ≤ j → j ≤ 10 → found j = false) →
    mainLoop found c = (11 - c, some failureMessage) := by
  intro k
  induction k with
  | zero =>
    intro c hc _
    rw [mainLoop_stop found c (by omega)]
    rw [show 11 - c = 0 from hc]
  | succ k ih =>
    intro c hc hfail
    rw [mainLoop, dif_neg (by omega : ¬ c > 10)]
    rw [if_neg (by rw [hfail c (Nat.le_refl c) (by omega)]; simp)]
    rw [ih (c + 1) (by omega) (fun j hj hj10 => hfail j (by omega) hj10)]
    show (11 - (c + 1) + 1, (some failureMessage : Option String)) = (11 - c, some failureMessage)
    rw [show 11 - (c + 1) + 1 = 11 - c from by omega]

/-- C10: for every lookup oracle, the retry loop of `main` started at
counter 0 performs at most 11 attempts (counter values 0 through 10 — one
more than the failure message "cannot find any books in 10 times" states);
when every attempt fails it performs exactly 11 attempts and prints the
failure message; and the loop never continues once the counter exceeds 10. -/
theorem mainLoop_spec (found : Nat → Bool) :
    (mainLoop found 0).1 ≤ 11 ∧
    ((∀ j, j ≤ 10 → found j = false) → mainLoop found 0 = (11, some failureMessage)) ∧
    (∀ c, c > 10 → mainLoop found c = (0, some failureMessage)) := by
  refine ⟨mainLoop_attempts_le found 11 0 rfl, ?_, ?_⟩
  · intro hfail
    have := mainLoop_all_fail found 11 0 rfl (fun j _ hj => hfail j hj)
    simpa using this
  · intro c hc
    exact mainLoop_stop found c hc

/-- C10 witness: the theorem applied to the oracle that never finds a book:
exactly 11 attempts, then the failure message. -/
theorem mainLoop_spec_witness :
    mainLoop (fun _ => false) 0 = (11, some failureMessage) :=
  (mainLoop_spec (fun _ => false)).2.1 (fun _ _ => rfl)
